import Mathlib

/-!
Verification development for the `originpro` Python package, a thin wrapper
that drives the Origin desktop application through command strings.

The development shallowly embeds the parts of the package that the claims
bear on:

* Python scalar conversions (`float(str)`, `int(...)`) as executable
  recognizers over character lists, with exact rational values in place of
  IEEE floats (the rounding of a decimal literal to a binary float is
  irrelevant to every claim: only *whether* a string converts matters, plus
  truncation of values that the code itself produces as small integers).
* `utils.last_backslash`, `utils.lt_int`, `utils._dict_to_xml`,
  `utils._tree_to_dict` and friends.
* The `NLFit` / `LinearFit` fitting-session wrappers of `analysis.py` as a
  state machine over the wrapper state (`_ended`, fitting-method flags)
  plus the host's LabTalk system-variable store, emitting the LabTalk
  command strings the wrapper issues via `LT_execute`.
* The live-object reference count of `base.py` / `config.py` as a
  transition system.
* The lazy `APP` application handle of `config.py`.
* The data-connector selection of `DSheet.from_file` / `_DC_from_ext`
  together with `os.path.splitext` (modelled from CPython's
  `genericpath._splitext`).
-/

set_option maxRecDepth 4000

deriving instance DecidableEq for Except

/-- Python exception kinds raised or caught by the code under study. -/
inductive PyErr where
  | valueError (msg : String)
  | overflowError
  | typeError
deriving DecidableEq, Repr

/-- An exact rational number, used in place of Python floats.  `den` is kept
positive; values built by `mkPyRat` are in lowest terms. -/
structure PyRat where
  num : Int
  den : Nat
deriving DecidableEq, Repr

/-- Build a `PyRat` in lowest terms from a numerator and positive
denominator. -/
def mkPyRat (n : Int) (d : Nat) : PyRat :=
  let g := Nat.gcd n.natAbs d
  ⟨n.tdiv (g : Int), d / g⟩

/-- Embed an integer as a `PyRat`. -/
def PyRat.ofInt (n : Int) : PyRat := ⟨n, 1⟩

/-- Python `int()` truncation toward zero of a rational value. -/
def pyTrunc (q : PyRat) : Int := q.num.tdiv (q.den : Int)

/-- ASCII whitespace as stripped by Python `float()` / `int()` on strings
(space, tab, newline, carriage return, vertical tab, form feed).  The model
covers ASCII input strings; Python additionally strips some Unicode spaces. -/
def isPySpace (c : Char) : Bool :=
  c = ' ' || c = '\t' || c = '\n' || c = '\r' || c = Char.ofNat 11 || c = Char.ofNat 12

/-- Strip leading and trailing Python whitespace from a character list. -/
def stripPySpace (cs : List Char) : List Char :=
  ((cs.dropWhile isPySpace).reverse.dropWhile isPySpace).reverse

/-- Helper for `underscoresOK`: scan with the previous character, requiring
every underscore to be surrounded by decimal digits, as CPython requires of
underscores in numeric strings. -/
def undOK : Char → List Char → Bool
  | _, [] => true
  | prev, c :: rest =>
    if c = '_' then
      prev.isDigit && (match rest with | d :: _ => d.isDigit | [] => false) && undOK c rest
    else undOK c rest

/-- Underscore placement check of CPython numeric-string conversion: an
underscore must have a decimal digit on both sides. -/
def underscoresOK (cs : List Char) : Bool := undOK ' ' cs

/-- Remove the (already validated) underscores of a numeric string. -/
def removeUnd (cs : List Char) : List Char := cs.filter (fun c => c ≠ '_')

/-- Numeric value of a digit string (most significant first). -/
def digitsVal (cs : List Char) : Nat := cs.foldl (fun a c => a * 10 + (c.toNat - 48)) 0

/-- Nonempty and all decimal digits. -/
def allDigits (cs : List Char) : Bool := !cs.isEmpty && cs.all Char.isDigit

/-- The rational `m * 10^e` for a mantissa `m` and integer exponent `e`. -/
def decValue (m : Nat) (e : Int) : PyRat :=
  if 0 ≤ e then ⟨(m * 10 ^ e.toNat : Nat), 1⟩ else mkPyRat (m : Int) (10 ^ (-e).toNat)

/-- Split a character list at the first character satisfying `p`; the second
component is `none` when no such character occurs. -/
def splitAtChar (p : Char → Bool) : List Char → List Char × Option (List Char)
  | [] => ([], none)
  | c :: rest =>
    if p c then ([], some rest)
    else
      let s := splitAtChar p rest
      (c :: s.1, s.2)

/-- Parse the unsigned decimal part of a Python float string (underscores
already removed, sign already stripped): `digits [. digits] [(e|E) [sign]
digits]` with at least one mantissa digit.  The value is the exact rational
denoted by the literal. -/
def parseDecimal (cs : List Char) : Option PyRat :=
  let me := splitAtChar (fun c => c = 'e' || c = 'E') cs
  let ifp := splitAtChar (fun c => c = '.') me.1
  let ip := ifp.1
  let fp := (ifp.2).getD []
  if !(ip.all Char.isDigit) || !(fp.all Char.isDigit) then none
  else if ip.isEmpty && fp.isEmpty then none
  else
    let m : Nat := digitsVal (ip ++ fp)
    let e0 : Int := -(fp.length : Int)
    match me.2 with
    | none => some (decValue m e0)
    | some es =>
      let sd : Int × List Char :=
        match es with
        | '+' :: r => (1, r)
        | '-' :: r => (-1, r)
        | r => (1, r)
      if allDigits sd.2 then some (decValue m (e0 + sd.1 * (digitsVal sd.2 : Int)))
      else none

/-- Result of Python `float()`: a finite value (modelled as the exact
rational the literal denotes), an infinity, or NaN. -/
inductive PyFloat where
  | finite (q : PyRat)
  | inf (neg : Bool)
  | nan
deriving DecidableEq, Repr

/-- Negation of a `PyRat`. -/
def PyRat.neg (q : PyRat) : PyRat := ⟨-q.num, q.den⟩

/-- Lowercase a character list (ASCII). -/
def lowerStr (cs : List Char) : List Char := cs.map Char.toLower

/-- Python `float(str)` on a character list: strip whitespace, optional
sign, then case-insensitive `inf`/`infinity`/`nan` or a decimal literal
with CPython underscore rules.  `none` models `ValueError`. -/
def pyFloatOfChars (cs0 : List Char) : Option PyFloat :=
  let cs := stripPySpace cs0
  let sb : Bool × List Char :=
    match cs with
    | '+' :: r => (false, r)
    | '-' :: r => (true, r)
    | r => (false, r)
  let body := sb.2
  let lb := lowerStr body
  if lb = ['i','n','f'] || lb = ['i','n','f','i','n','i','t','y'] then some (.inf sb.1)
  else if lb = ['n','a','n'] then some .nan
  else if underscoresOK body then
    match parseDecimal (removeUnd body) with
    | some q => some (.finite (if sb.1 then q.neg else q))
    | none => none
  else none

/-- Python `float(str)` on a string. -/
def pyFloat? (s : String) : Option PyFloat := pyFloatOfChars s.toList

/-- Python `int(str)`: strip whitespace, optional sign, digits with CPython
underscore rules; `none` models `ValueError`. -/
def pyIntOfChars (cs0 : List Char) : Option Int :=
  let cs := stripPySpace cs0
  let sb : Bool × List Char :=
    match cs with
    | '+' :: r => (false, r)
    | '-' :: r => (true, r)
    | r => (false, r)
  if underscoresOK sb.2 then
    let ds := removeUnd sb.2
    if allDigits ds then
      some (if sb.1 then -(digitsVal ds : Int) else (digitsVal ds : Int))
    else none
  else none

/-- Python `int(str)` on a string. -/
def pyIntOfStr (s : String) : Option Int := pyIntOfChars s.toList

/-- A value coming back from the host automation layer: a float (the usual
case for `LT_evaluate` / `GetNumProp` / `DoMethod`), a string, or Python
`None`. -/
inductive HVal where
  | num (f : PyFloat)
  | str (s : String)
  | pynone
deriving DecidableEq, Repr

/-- Python `int(x)` on a host value: truncates finite floats toward zero,
raises `ValueError` on NaN and on non-numeric strings, `OverflowError` on
infinities, `TypeError` on `None`. -/
def pyInt : HVal → Except PyErr Int
  | .num (.finite q) => .ok (pyTrunc q)
  | .num .nan => .error (.valueError "cannot convert float NaN to integer")
  | .num (.inf _) => .error .overflowError
  | .str s =>
    match pyIntOfStr s with
    | some n => .ok n
    | none => .error (.valueError "invalid literal for int() with base 10")
  | .pynone => .error .typeError

/-- The `try: return int(...) except ValueError: return 0` pattern shared by
`utils.lt_int`, `BaseObject.get_int` and `BaseObject.method_int`: a
`ValueError` from the conversion yields 0, any other exception propagates. -/
def intCatchVE (v : HVal) : Except PyErr Int :=
  match pyInt v with
  | .ok n => .ok n
  | .error (.valueError _) => .ok 0
  | .error e => .error e

/-- `utils.lt_int`, parameterised by the host result of
`po.LT_evaluate(formula)` (the body of `lt_float`). -/
def lt_int (hostResult : HVal) : Except PyErr Int := intCatchVE hostResult

/-- `BaseObject.get_int`, parameterised by the float the host returns from
`GetNumProp` (the body of `get_float`). -/
def get_int (hostResult : PyFloat) : Except PyErr Int := intCatchVE (.num hostResult)

/-- `BaseObject.method_int`, parameterised by the float the host returns
from `DoMethod` (the body of `method_float`). -/
def method_int (hostResult : PyFloat) : Except PyErr Int := intCatchVE (.num hostResult)

/-- Last element of a character list; only used on nonempty lists. -/
def lastChar (cs : List Char) : Char := cs.getLastD (Char.ofNat 0)

/-- `utils.last_backslash`, over `os.path.sep` as the parameter `sep` and
the path as a character list (Python `fpath[-1]`, `fpath + PATHSEP` and
`fpath[:-1]` become `lastChar`, append and `dropLast`). -/
def last_backslash (sep : Char) (fpath : List Char) (action : Char) :
    Except PyErr (List Char) :=
  if fpath.length < 3 then .error (.valueError "invalid file path")
  else if ¬(action = 'a' ∨ action = 't') then .error (.valueError "invalid action")
  else if action = 'a' then
    if lastChar fpath = sep then .ok fpath else .ok (fpath ++ [sep])
  else
    if ¬(lastChar fpath = sep) then .ok fpath else .ok fpath.dropLast

example : pyFloat? "1" = some (.finite ⟨1, 1⟩) := by decide
example : pyFloat? " -2.5e1 " = some (.finite ⟨-25, 1⟩) := by decide
example : pyFloat? "abc" = none := by decide
example : pyFloat? "" = none := by decide
example : pyFloat? "Infinity" = some (.inf false) := by decide
example : pyFloat? "1_0" = some (.finite ⟨10, 1⟩) := by decide
example : pyFloat? "1_" = none := by decide
example : pyFloat? ".5" = some (.finite ⟨1, 2⟩) := by decide
example : pyTrunc ⟨3, 2⟩ = 1 := by decide
example : pyTrunc ⟨-3, 2⟩ = -1 := by decide
example : lt_int (.num .nan) = .ok 0 := by decide
example : lt_int (.num (.inf false)) = .error .overflowError := by decide
example :
    last_backslash '\\' ['a','b','\\','\\'] 't' = .ok ['a','b','\\'] := by decide
example :
    last_backslash '\\' ['a','b','\\'] 't' = .ok ['a','b'] := by decide
example :
    last_backslash '\\' ['a','b'] 't' = .error (.valueError "invalid file path") := by decide
example :
    last_backslash '\\' ['a','b','c'] 'a' = .ok ['a','b','c','\\'] := by decide

/-! ## Dictionary / XML serialization (`utils._dict_to_xml`, `utils._tree_to_dict`)

The input dictionaries of `_dict_to_xml` in the round-trip claim hold
strings or nested dictionaries (`DVal`); the output dictionaries of
`_tree_to_dict` hold strings, floats or nested dictionaries (`PyVal`).
Python dictionaries preserve insertion order and have pairwise distinct
keys; they are modelled as ordered association lists (`DEntries`,
`PEntries`), with `dictInsert` giving Python's replace-or-append update. -/

mutual
inductive DVal where
  | str (s : String)
  | dict (entries : DEntries)
deriving DecidableEq, Repr
inductive DEntries where
  | nil
  | cons (key : String) (val : DVal) (rest : DEntries)
deriving DecidableEq, Repr
end

mutual
inductive PyVal where
  | str (s : String)
  | num (f : PyFloat)
  | dict (entries : PEntries)
deriving DecidableEq, Repr
inductive PEntries where
  | nil
  | cons (key : String) (val : PyVal) (rest : PEntries)
deriving DecidableEq, Repr
end

/-! An XML element as `xml.etree.ElementTree` sees it (attributes are
disabled throughout the claims, so they are not modelled): a tag, optional
text, and a list of child elements. -/
mutual
inductive XNode where
  | node (tag : String) (text : Option String) (children : XNodes)
deriving DecidableEq, Repr
inductive XNodes where
  | nil
  | cons (n : XNode) (rest : XNodes)
deriving DecidableEq, Repr
end

/-! Embed the round-trip input values into the output value type. -/
mutual
def DVal.toPy : DVal → PyVal
  | .str s => .str s
  | .dict d => .dict d.toPy
def DEntries.toPy : DEntries → PEntries
  | .nil => .nil
  | .cons k v rest => .cons k v.toPy rest.toPy
end

/-- Does `d` have an entry with key `k`? -/
def DEntries.hasKey : DEntries → String → Bool
  | .nil, _ => false
  | .cons k _ rest, k2 => k = k2 || rest.hasKey k2

/-- Does `d` have an entry with key `k`? -/
def PEntries.hasKey : PEntries → String → Bool
  | .nil, _ => false
  | .cons k _ rest, k2 => k = k2 || rest.hasKey k2

/-- Append two entry lists. -/
def PEntries.append : PEntries → PEntries → PEntries
  | .nil, e => e
  | .cons k v rest, e => .cons k v (rest.append e)

/-- Python dictionary update `dd[k] = v`: replace in place when the key
exists, append otherwise. -/
def dictInsert : PEntries → String → PyVal → PEntries
  | .nil, k, v => .cons k v .nil
  | .cons k1 v1 rest, k, v =>
    if k1 = k then .cons k1 v rest else .cons k1 v1 (dictInsert rest k v)

/-! `utils._dict_to_xml_element` with `bAttributes` false, restricted to the
claim's input domain (string or nested-dictionary values, where Python
`str(v)` is the identity): each entry `(k, v)` becomes a child element with
tag `k`; a dictionary value recurses, any other value becomes the text. -/
mutual
def xmlChildOfVal (key : String) : DVal → XNode
  | .str s => .node key (some s) .nil
  | .dict d => .node key none (xmlChildren d)
def xmlChildren : DEntries → XNodes
  | .nil => .nil
  | .cons k v rest => .cons (xmlChildOfVal k v) (xmlChildren rest)
end

/-- `utils._dict_to_xml` with `bAttributes` false, up to (but not
including) `ET.tostring`: the element tree built from the dictionary under
a root element tagged `root`. -/
def dict_to_xml (d : DEntries) : XNode := .node "root" none (xmlChildren d)

/-! The effect of `ET.tostring` followed by `ET.fromstring` on an element
tree: an element whose text is the empty string is serialized in the short
form and parses back with text `None`; all other text is preserved.  (The
model's scope is text without carriage returns or other control characters,
which the XML layer would lose or reject.) -/
/-- Text normalisation of one serialize-and-parse cycle: empty text is
written in the short element form and parses back as `None`. -/
def normText : Option String → Option String
  | some t => if t = "" then none else some t
  | none => none

mutual
def XNode.serializeParse : XNode → XNode
  | .node t txt ch => .node t (normText txt) ch.serializeParse
def XNodes.serializeParse : XNodes → XNodes
  | .nil => .nil
  | .cons n rest => .cons n.serializeParse rest.serializeParse
end

/-- Top-level name for `XNode.serializeParse`. -/
def serializeParse (n : XNode) : XNode := n.serializeParse

/-! `utils._tree_to_dict` with `bAttributes` false.  `treeToDictVal` is the
value stored for one node: a node with children maps to the dictionary
built from its children; a childless node maps to `float(text)` when that
conversion succeeds, to `''` when the text is `None`, and to the text
otherwise.  `treeToDictList` threads the updated dictionary through a list
of nodes (`for child in node: _tree_to_dict(dd2, child)`). -/
/-- Tag of an XML element. -/
def XNode.tag : XNode → String
  | .node t _ _ => t

mutual
def treeToDictVal : XNode → PyVal
  | .node _ txt .nil =>
    match txt with
    | none => .str ""
    | some t =>
      match pyFloat? t with
      | some f => .num f
      | none => .str t
  | .node _ _ (.cons c cs) => .dict (treeToDictList .nil (.cons c cs))
def treeToDictList : PEntries → XNodes → PEntries
  | dd, .nil => dd
  | dd, .cons n rest => treeToDictList (dictInsert dd n.tag (treeToDictVal n)) rest
end

/-- `utils._tree_to_dict` on one node: store the node's value (see
`treeToDictVal`) in `dd` under the node's tag. -/
def tree_to_dict (dd : PEntries) (n : XNode) : PEntries :=
  dictInsert dd n.tag (treeToDictVal n)

/-- The round trip of the claim: convert the dictionary to an XML string
with `_dict_to_xml`, parse it back, and convert each child of the parsed
root with `_tree_to_dict` into a fresh dictionary (as `lt_tree_to_dict`
does). -/
def xmlRoundtrip (d : DEntries) : PEntries :=
  match serializeParse (dict_to_xml d) with
  | .node _ _ ch => treeToDictList .nil ch

example :
    xmlRoundtrip (.cons "a" (.str "x") .nil) = .cons "a" (.str "x") .nil := rfl
example :
    xmlRoundtrip (.cons "a" (.str "1") .nil) =
      .cons "a" (.num (.finite ⟨1, 1⟩)) .nil := rfl
example :
    xmlRoundtrip (.cons "a" (.dict .nil) .nil) = .cons "a" (.str "") .nil := rfl
example :
    xmlRoundtrip (.cons "a" (.str "") .nil) = .cons "a" (.str "") .nil := rfl
example :
    xmlRoundtrip (.cons "b" (.dict (.cons "c" (.str "hi") .nil)) .nil) =
      .cons "b" (.dict (.cons "c" (.str "hi") .nil)) .nil := rfl

/-! ## Round-trip well-formedness and proofs (claims about the
serialization layer) -/

/-- Text that the XML layer transports unchanged: no carriage return and no
other control characters (tab and newline are fine).  `ET.tostring` does
not escape control characters in text, so a CR would be normalised to LF on
re-parsing and characters below 0x20 other than tab/newline/CR would make
the output unparseable; the round-trip model is only faithful on safe
text. -/
def xmlSafeText (s : String) : Bool :=
  s.toList.all (fun c => 32 ≤ c.toNat || c = '\t' || c = '\n')

/-! Well-formedness of a round-trip input dictionary: keys are pairwise
distinct at each level (automatic for a Python dict), every string value is
XML-safe and is not accepted by Python `float()`, and every nested
dictionary is nonempty. -/
mutual
def DVal.wf : DVal → Bool
  | .str s => xmlSafeText s && (pyFloat? s).isNone
  | .dict d => (match d with | .nil => false | .cons _ _ _ => true) && d.wf
def DEntries.wf : DEntries → Bool
  | .nil => true
  | .cons k v rest => !(rest.hasKey k) && v.wf && rest.wf
end

/-- All keys of `d` are absent from the accumulator `acc`. -/
def DEntries.freshIn : DEntries → PEntries → Bool
  | .nil, _ => true
  | .cons k _ rest, acc => !(acc.hasKey k) && rest.freshIn acc

theorem hasKey_append : ∀ (a b : PEntries) (k : String),
    (a.append b).hasKey k = (a.hasKey k || b.hasKey k)
  | .nil, b, k => by simp [PEntries.append, PEntries.hasKey]
  | .cons k1 v1 rest, b, k => by
    simp [PEntries.append, PEntries.hasKey, hasKey_append rest b k, Bool.or_assoc]

theorem dictInsert_fresh : ∀ (acc : PEntries) (k : String) (v : PyVal),
    acc.hasKey k = false → dictInsert acc k v = acc.append (.cons k v .nil)
  | .nil, k, v, _ => rfl
  | .cons k1 v1 rest, k, v, h => by
    simp [PEntries.hasKey] at h
    simp [dictInsert, PEntries.append, h.1, dictInsert_fresh rest k v h.2]

theorem append_assoc : ∀ (a b c : PEntries),
    (a.append b).append c = a.append (b.append c)
  | .nil, b, c => rfl
  | .cons k v rest, b, c => by simp [PEntries.append, append_assoc rest b c]

theorem freshIn_nil : ∀ d : DEntries, d.freshIn .nil = true
  | .nil => rfl
  | .cons k v rest => by simp [DEntries.freshIn, PEntries.hasKey, freshIn_nil rest]

theorem freshIn_append_single : ∀ (d : DEntries) (acc : PEntries) (k : String) (v : PyVal),
    d.freshIn acc = true → d.hasKey k = false →
    d.freshIn (acc.append (.cons k v .nil)) = true
  | .nil, _, _, _, _, _ => rfl
  | .cons k1 v1 rest, acc, k, v, hf, hk => by
    simp [DEntries.freshIn] at hf
    simp [DEntries.hasKey] at hk
    simp [DEntries.freshIn, hasKey_append, PEntries.hasKey, hf.1,
      freshIn_append_single rest acc k v hf.2 hk.2]
    intro h
    exact absurd h.symm hk.1

theorem tag_serializeParse_child (k : String) (v : DVal) :
    ((xmlChildOfVal k v).serializeParse).tag = k := by
  cases v <;> rfl


theorem append_nil : ∀ acc : PEntries, acc.append .nil = acc
  | .nil => rfl
  | .cons k v rest => by simp [PEntries.append, append_nil rest]

mutual
theorem roundtripVal : ∀ (k : String) (v : DVal), v.wf = true →
    treeToDictVal ((xmlChildOfVal k v).serializeParse) = v.toPy
  | k, .str s, h => by
    simp [DVal.wf] at h
    by_cases hs : s = ""
    · subst hs
      rfl
    · have hp : pyFloat? s = none := by
        cases hq : pyFloat? s with
        | none => rfl
        | some f => rw [hq] at h; simp at h
      simp [xmlChildOfVal, XNode.serializeParse, XNodes.serializeParse, normText, hs,
        treeToDictVal, hp, DVal.toPy]
  | _, .dict .nil, h => by
    simp [DVal.wf] at h
  | k, .dict (.cons k1 v1 rest), h => by
    simp [DVal.wf] at h
    have hrt := roundtripEntries (.cons k1 v1 rest) .nil h (freshIn_nil _)
    calc treeToDictVal ((xmlChildOfVal k (.dict (.cons k1 v1 rest))).serializeParse)
        = PyVal.dict (treeToDictList .nil ((xmlChildren (.cons k1 v1 rest)).serializeParse)) :=
          rfl
      _ = PyVal.dict ((DEntries.cons k1 v1 rest).toPy) := by rw [hrt]; rfl
      _ = (DVal.dict (.cons k1 v1 rest)).toPy := rfl
theorem roundtripEntries : ∀ (d : DEntries) (acc : PEntries), d.wf = true →
    d.freshIn acc = true →
    treeToDictList acc ((xmlChildren d).serializeParse) = acc.append d.toPy
  | .nil, acc, _, _ => by
    simp [xmlChildren, XNodes.serializeParse, treeToDictList, DEntries.toPy, append_nil]
  | .cons k v rest, acc, hwf, hf => by
    simp [DEntries.wf] at hwf
    simp [DEntries.freshIn] at hf
    have hk : rest.hasKey k = false := by
      cases hck : rest.hasKey k
      · rfl
      · rw [hck] at hwf; simp at hwf
    have hak : acc.hasKey k = false := by
      cases hca : acc.hasKey k
      · rfl
      · rw [hca] at hf; simp at hf
    have hv : v.wf = true := hwf.1.2
    have hrest : rest.wf = true := hwf.2
    have hfr : rest.freshIn acc = true := hf.2
    calc treeToDictList acc ((xmlChildren (.cons k v rest)).serializeParse)
        = treeToDictList
            (dictInsert acc ((xmlChildOfVal k v).serializeParse).tag
              (treeToDictVal ((xmlChildOfVal k v).serializeParse)))
            ((xmlChildren rest).serializeParse) := rfl
      _ = treeToDictList (acc.append (.cons k v.toPy .nil))
            ((xmlChildren rest).serializeParse) := by
          rw [tag_serializeParse_child, roundtripVal k v hv, dictInsert_fresh acc k v.toPy hak]
      _ = (acc.append (.cons k v.toPy .nil)).append rest.toPy :=
          roundtripEntries rest (acc.append (.cons k v.toPy .nil)) hrest
            (freshIn_append_single rest acc k v.toPy hfr hk)
      _ = acc.append ((DEntries.cons k v rest).toPy) := by
          rw [append_assoc]
          rfl
end

/-- C1 (counterexample): the round trip is not the identity on all
dictionaries of strings / nested dictionaries with valid tag keys.  A
string value that Python `float()` accepts comes back as a float (here
`"1"` comes back as `1.0`), and an empty nested dictionary comes back as
the empty string. -/
theorem claim_C1_cex :
    xmlRoundtrip (.cons "a" (.str "1") .nil) ≠ (DEntries.cons "a" (.str "1") .nil).toPy
    ∧ xmlRoundtrip (.cons "a" (.dict .nil) .nil)
        ≠ (DEntries.cons "a" (.dict .nil) .nil).toPy := by
  constructor
  · intro h
    rw [show xmlRoundtrip (.cons "a" (.str "1") .nil)
          = PEntries.cons "a" (.num (.finite ⟨1, 1⟩)) .nil from rfl,
      show (DEntries.cons "a" (.str "1") .nil).toPy
          = PEntries.cons "a" (.str "1") .nil from rfl] at h
    injection h with h1 h2 h3
    exact PyVal.noConfusion h2
  · intro h
    rw [show xmlRoundtrip (.cons "a" (.dict .nil) .nil)
          = PEntries.cons "a" (.str "") .nil from rfl,
      show (DEntries.cons "a" (.dict .nil) .nil).toPy
          = PEntries.cons "a" (.dict .nil) .nil from rfl] at h
    injection h with h1 h2 h3
    exact PyVal.noConfusion h2

/-- C1 (amended): converting a nested dictionary with `_dict_to_xml`
(attributes disabled) to an XML string and converting each child of the
parsed root back with `_tree_to_dict` yields the original dictionary,
provided every string value is rejected by Python `float()` (and is free
of control characters the XML layer cannot transport) and every nested
dictionary is nonempty. -/
theorem claim_C1 (d : DEntries) (h : d.wf = true) : xmlRoundtrip d = d.toPy := by
  calc xmlRoundtrip d = treeToDictList .nil ((xmlChildren d).serializeParse) := rfl
    _ = PEntries.nil.append d.toPy := roundtripEntries d .nil h (freshIn_nil d)
    _ = d.toPy := rfl

/-- Witness for C1 (amended) at a concrete two-level dictionary. -/
theorem claim_C1_witness :
    (DEntries.cons "k" (.str "abc")
        (.cons "m" (.dict (.cons "n" (.str "") .nil)) .nil)).wf = true
    ∧ xmlRoundtrip (DEntries.cons "k" (.str "abc")
        (.cons "m" (.dict (.cons "n" (.str "") .nil)) .nil))
      = (DEntries.cons "k" (.str "abc")
        (.cons "m" (.dict (.cons "n" (.str "") .nil)) .nil)).toPy :=
  ⟨rfl, claim_C1 _ rfl⟩

/-- C7: `_tree_to_dict` stores, under the node's tag, a nested dictionary
for a node with children; for a childless node, the float value of its
text when `float()` accepts it, the empty string when the text is `None`,
and the text itself otherwise. -/
theorem claim_C7 (dd : PEntries) (tag : String) (txt : Option String) (ch : XNodes) :
    (ch ≠ .nil → tree_to_dict dd (.node tag txt ch)
        = dictInsert dd tag (.dict (treeToDictList .nil ch)))
    ∧ tree_to_dict dd (.node tag none .nil) = dictInsert dd tag (.str "")
    ∧ (∀ t f, pyFloat? t = some f →
        tree_to_dict dd (.node tag (some t) .nil) = dictInsert dd tag (.num f))
    ∧ (∀ t, pyFloat? t = none →
        tree_to_dict dd (.node tag (some t) .nil) = dictInsert dd tag (.str t)) := by
  refine ⟨?_, rfl, ?_, ?_⟩
  · intro hch
    cases ch with
    | nil => exact absurd rfl hch
    | cons c cs => rfl
  · intro t f hf
    simp [tree_to_dict, treeToDictVal, XNode.tag, hf]
  · intro t hf
    simp [tree_to_dict, treeToDictVal, XNode.tag, hf]

/-- Witness for C7 at concrete nodes: a float-parsing text (`"2.5"`) and a
node with a child. -/
theorem claim_C7_witness :
    (XNodes.cons (.node "b" none .nil) .nil ≠ .nil)
    ∧ pyFloat? "2.5" = some (.finite ⟨5, 2⟩)
    ∧ tree_to_dict .nil (.node "a" (some "2.5") .nil)
        = dictInsert .nil "a" (.num (.finite ⟨5, 2⟩))
    ∧ tree_to_dict .nil (.node "w" (some "x") (.cons (.node "b" none .nil) .nil))
        = dictInsert .nil "w"
            (.dict (treeToDictList .nil (.cons (.node "b" none .nil) .nil))) :=
  ⟨fun h => XNodes.noConfusion h, by decide,
    (claim_C7 .nil "a" (some "2.5") .nil).2.2.1 "2.5" _ (by decide),
    (claim_C7 .nil "w" (some "x") (.cons (.node "b" none .nil) .nil)).1
      (fun h => XNodes.noConfusion h)⟩

/-- C9 (counterexample): an infinite host result makes `lt_int` raise
`OverflowError` (uncaught, since only `ValueError` is caught) instead of
returning 0, although `float('inf')` cannot be converted to an int. -/
theorem claim_C9_cex :
    lt_int (.num (.inf false)) = .error .overflowError
    ∧ lt_int (.num (.inf false)) ≠ .ok 0 :=
  ⟨rfl, by decide⟩

/-- C9 (amended): `lt_int`, `get_int` and `method_int` never propagate a
`ValueError`: whenever the `int()` conversion of the host result fails
with a `ValueError` (NaN, or a non-numeric value such as a string or
`None` is not such a case for `None`, which raises `TypeError`), they
return 0.  However they are not total: an infinite host result raises
`OverflowError`, which the `except ValueError` clause does not catch. -/
theorem claim_C9 :
    (∀ (r : HVal) (m : String), lt_int r ≠ .error (.valueError m))
    ∧ (∀ (r : HVal) (m : String), pyInt r = .error (.valueError m) → lt_int r = .ok 0)
    ∧ (∀ (f : PyFloat) (m : String),
        get_int f ≠ .error (.valueError m) ∧ method_int f ≠ .error (.valueError m))
    ∧ get_int .nan = .ok 0 ∧ method_int .nan = .ok 0
    ∧ (∀ b, lt_int (.num (.inf b)) = .error .overflowError
        ∧ get_int (.inf b) = .error .overflowError
        ∧ method_int (.inf b) = .error .overflowError) := by
  refine ⟨?_, ?_, ?_, rfl, rfl, ?_⟩
  · intro r m
    unfold lt_int intCatchVE
    cases hp : pyInt r with
    | ok n => simp
    | error e => cases e <;> simp
  · intro r m h
    unfold lt_int intCatchVE
    rw [h]
  · intro f m
    cases f <;> constructor <;> simp [get_int, method_int, intCatchVE, pyInt]
  · intro b
    exact ⟨rfl, rfl, rfl⟩

/-- Witness for C9 (amended) at a non-numeric host string. -/
theorem claim_C9_witness :
    pyInt (.str "x") = .error (.valueError "invalid literal for int() with base 10")
    ∧ lt_int (.str "x") = .ok 0 :=
  ⟨by decide, claim_C9.2.1 (.str "x") "invalid literal for int() with base 10" (by decide)⟩

/-- The composite of the idempotence claim for `last_backslash`: apply the
function, and on success apply it again to the result. -/
def lbTwice (sep : Char) (fpath : List Char) (action : Char) : Except PyErr (List Char) :=
  match last_backslash sep fpath action with
  | .ok r => last_backslash sep r action
  | .error e => .error e

/-- C10 (counterexample): trimming is not idempotent.  On a path ending in
two separators, the first call removes only one of them, and the second
call removes another, so the results differ (both calls succeed). -/
theorem claim_C10_cex :
    3 ≤ (['a','b','\\','\\'] : List Char).length
    ∧ lbTwice '\\' ['a','b','\\','\\'] 't' ≠ last_backslash '\\' ['a','b','\\','\\'] 't' :=
  ⟨by decide, by decide⟩

theorem lastChar_concat (l : List Char) (c : Char) : lastChar (l ++ [c]) = c := by
  simp [lastChar]

/-- C10 (amended): `last_backslash` is idempotent for action `a` on every
path of length at least 3; for action `t` it is idempotent provided the
path, when it ends in a separator, has length at least 4 and does not end
in two separators (else the second call either trims again or fails the
length check). -/
theorem claim_C10 (sep : Char) (fpath : List Char) (action : Char)
    (h3 : 3 ≤ fpath.length) (ha : action = 'a' ∨ action = 't')
    (ht : action = 't' → lastChar fpath = sep →
      4 ≤ fpath.length ∧ lastChar fpath.dropLast ≠ sep) :
    lbTwice sep fpath action = last_backslash sep fpath action := by
  have hlen : ¬ fpath.length < 3 := by omega
  rcases ha with ha | ha <;> subst ha
  · by_cases hl : lastChar fpath = sep
    · simp [lbTwice, last_backslash, hlen, hl]
    · have h2 : ¬ (fpath ++ [sep]).length < 3 := by
        simp
        omega
      simp [lbTwice, last_backslash, hlen, hl, h2, lastChar_concat]
      omega
  · by_cases hl : lastChar fpath = sep
    · obtain ⟨h4, hdl⟩ := ht rfl hl
      have hdlen : ¬ fpath.dropLast.length < 3 := by
        rw [List.length_dropLast]
        omega
      simp [lbTwice, last_backslash, hlen, hl, hdlen, hdl]
      omega
    · simp [lbTwice, last_backslash, hlen, hl]

/-- Witness for C10 (amended) at a concrete path ending in one separator. -/
theorem claim_C10_witness :
    (3 ≤ (['a','b','c','\\'] : List Char).length ∧ (('t' : Char) = 'a' ∨ ('t' : Char) = 't'))
    ∧ lbTwice '\\' ['a','b','c','\\'] 't' = last_backslash '\\' ['a','b','c','\\'] 't' :=
  ⟨⟨by decide, by decide⟩,
    claim_C10 '\\' ['a','b','c','\\'] 't' (by decide) (by decide)
      (fun _ _ => ⟨by decide, by decide⟩)⟩

/-! ## Fitting sessions (`analysis.py`) and the host variable store -/

/-- The LabTalk numeric system-variable store of the host, as an
association list (`LT_get_var` of an unset name defaults to 0; the model
carries finite values). -/
abbrev HostVars := List (String × PyRat)

/-- Read a LabTalk numeric variable (`po.LT_get_var` / `LT_evaluate`). -/
def getVar : HostVars → String → PyRat
  | [], _ => ⟨0, 1⟩
  | p :: rest, k => if p.1 = k then p.2 else getVar rest k

/-- Write a LabTalk numeric variable (`po.LT_set_var`). -/
def setVar : HostVars → String → PyRat → HostVars
  | [], k, v => [(k, v)]
  | p :: rest, k, v => if p.1 = k then (k, v) :: rest else p :: setVar rest k v

/-- A LabTalk command issued through `po.LT_execute` by the `NLFit`
wrapper.  `ltOther` marks commands that are not part of the fitting
protocol (temporary-string bookkeeping, parameter-tree assignments). -/
inductive NLCmd where
  | nlbegin (variant : String)
  | nlfit (iter : String)
  | nlend (rpt : Bool) (auto : Bool)
  | nlpara
  | ltOther (tag : String)
deriving DecidableEq, Repr

def NLCmd.isBegin : NLCmd → Bool
  | .nlbegin _ => true
  | _ => false

def NLCmd.isEnd : NLCmd → Bool
  | .nlend _ _ => true
  | _ => false

def NLCmd.isFit : NLCmd → Bool
  | .nlfit _ => true
  | _ => false

/-- The `NLFit` wrapper state: the `_ended` flag plus the fitting-method
flags computed in `__init__` from the host's FDF description (`_odr`,
`_implicit`, `_numDeps`, `_numIndeps`). -/
structure NLState where
  ended : Bool
  odr : Bool
  implicit : Bool
  numDeps : Nat
  numIndeps : Nat
deriving DecidableEq, Repr

/-- State after `NLFit.__init__` (which sets `self._ended = False` before
anything else); the method flags come from the host and the `method`
argument and are taken as parameters. -/
def nlInit (odr implicit : Bool) (numDeps numIndeps : Nat) : NLState :=
  ⟨false, odr, implicit, numDeps, numIndeps⟩

/-- A method call on an `NLFit` object.  `set_data`'s argument records
whether a `z` column was given; `fix_param`'s records whether the value is
a `bool` (in which case no parameter-value assignment is emitted). -/
inductive NLCall where
  | set_data (hasZ : Bool)
  | set_mdata
  | set_range
  | fix_param (valIsBool : Bool)
  | set_param
  | param_box
  | fit (iter : String)
  | result
  | report (auto : Bool)
deriving DecidableEq, Repr

/-- Result of one `NLFit` method call: new wrapper state, new host
variables, the LabTalk commands issued (in order), and the exception
raised, if any. -/
structure NLOut where
  state : NLState
  vars : HostVars
  cmds : List NLCmd
  err : Option PyErr
deriving DecidableEq, Repr

/-- One `NLFit` method call (`analysis.py`).  `set_data` / `set_mdata` /
`set_range` emit their `nlbegin` variant and clear `_ended`; `fit` emits
`nlfit` unconditionally; `result` emits `nlend` only when the session has
not ended, then reads the result tree (temporary-string commands);
`report` raises `ValueError` when the session has already ended, else
saves `@NLFS`, emits `nlend 1 [1]`, sets `_ended` and restores `@NLFS`. -/
def nlStep (s : NLState) (vs : HostVars) : NLCall → NLOut
  | .set_data hasZ =>
    ⟨{ s with ended := false }, vs,
      [.nlbegin (if hasZ then "z" else if s.odr then "o" else "")], none⟩
  | .set_mdata => ⟨{ s with ended := false }, vs, [.nlbegin "m"], none⟩
  | .set_range =>
    ⟨{ s with ended := false }, vs,
      [.nlbegin ((if s.odr then "o" else "")
        ++ (if ¬((s.implicit ∧ s.numIndeps = 2)
              ∨ (¬s.implicit ∧ s.numDeps = 1 ∧ s.numIndeps = 1)) then "r" else ""))], none⟩
  | .fix_param valIsBool =>
    ⟨s, vs, (if valIsBool then [] else [.ltOther "tree-set-param"])
      ++ [.ltOther "tree-set-fix"], none⟩
  | .set_param => ⟨s, vs, [.ltOther "tree-set-param"], none⟩
  | .param_box => ⟨s, vs, [.nlpara], none⟩
  | .fit iter => ⟨s, vs, [.nlfit iter], none⟩
  | .result =>
    if s.ended then ⟨s, vs, [.ltOther "read-tree", .ltOther "del-tmp-str"], none⟩
    else
      ⟨{ s with ended := true }, vs,
        [.nlend false false, .ltOther "read-tree", .ltOther "del-tmp-str"], none⟩
  | .report auto =>
    if s.ended then
      ⟨s, vs, [], some (.valueError "You must call report() before calling result().")⟩
    else
      ⟨{ s with ended := true },
        setVar (setVar vs "@NLFS" ⟨0, 1⟩) "@NLFS" (getVar vs "@NLFS"),
        [.nlend true auto], none⟩

/-- Run a sequence of method calls, concatenating the issued commands.  An
exception propagates to the Python caller, who may catch it and keep using
the object, so the trace semantics ranges over all call sequences. -/
def nlRun (s : NLState) (vs : HostVars) : List NLCall → NLState × HostVars × List NLCmd
  | [] => (s, vs, [])
  | c :: cs =>
    let o := nlStep s vs c
    let r := nlRun o.state o.vars cs
    (r.1, r.2.1, o.cmds ++ r.2.2)

/-- The protocol-order property claimed of every command trace: `nlfit`
only after some begin command, `nlend` only inside an open session (a
begin with no `nlend` since). -/
def protocolOrderOK : Bool → Bool → List NLCmd → Bool
  | _, _, [] => true
  | anyBegin, openSess, c :: rest =>
    match c with
    | .nlbegin _ => protocolOrderOK true true rest
    | .nlfit _ => anyBegin && protocolOrderOK anyBegin openSess rest
    | .nlend _ _ => openSess && protocolOrderOK anyBegin false rest
    | _ => protocolOrderOK anyBegin openSess rest

/-- The claim's property on a full trace. -/
def protocolOrderClaim (tr : List NLCmd) : Bool := protocolOrderOK false false tr

/-- C2 (counterexample): on a fresh session, calling `fit()` and then
`result()` issues `nlfit` and `nlend` with no begin command at all —
neither method checks that data has been set, and `__init__` leaves
`_ended` false so `result()` emits `nlend` unconditionally. -/
theorem claim_C2_cex :
    (nlRun (nlInit false false 1 1) [] [.fit "", .result]).2.2
      = [.nlfit "", .nlend false false, .ltOther "read-tree", .ltOther "del-tmp-str"]
    ∧ protocolOrderClaim ((nlRun (nlInit false false 1 1) [] [.fit "", .result]).2.2)
        = false :=
  ⟨rfl, rfl⟩

/-- Scan a trace, failing when an `nlend` occurs while the previous
session has already ended (no begin since the last `nlend`). -/
def noDoubleEnd : Bool → List NLCmd → Bool
  | _, [] => true
  | sawEnd, c :: rest =>
    match c with
    | .nlbegin _ => noDoubleEnd false rest
    | .nlend _ _ => !sawEnd && noDoubleEnd true rest
    | _ => noDoubleEnd sawEnd rest

/-- The ended-since-last-begin flag after a trace. -/
def endFlag : Bool → List NLCmd → Bool
  | f, [] => f
  | _, .nlbegin _ :: rest => endFlag false rest
  | _, .nlend _ _ :: rest => endFlag true rest
  | f, .nlfit _ :: rest => endFlag f rest
  | f, .nlpara :: rest => endFlag f rest
  | f, .ltOther _ :: rest => endFlag f rest

theorem noDoubleEnd_append (xs ys : List NLCmd) : ∀ f : Bool,
    noDoubleEnd f (xs ++ ys)
      = (noDoubleEnd f xs && noDoubleEnd (endFlag f xs) ys) := by
  induction xs with
  | nil => intro f; simp [noDoubleEnd, endFlag]
  | cons c rest ih => intro f; cases c <;> simp [noDoubleEnd, endFlag, ih, Bool.and_assoc]

theorem nlStep_cmds_ok (s : NLState) (vs : HostVars) (c : NLCall) :
    noDoubleEnd s.ended (nlStep s vs c).cmds = true
    ∧ endFlag s.ended (nlStep s vs c).cmds = (nlStep s vs c).state.ended := by
  cases c
  case fix_param b =>
    cases b <;> cases hs : s.ended <;> simp [nlStep, hs, noDoubleEnd, endFlag]
  all_goals cases hs : s.ended <;> simp [nlStep, hs, noDoubleEnd, endFlag]

theorem nlRun_noDoubleEnd (calls : List NLCall) : ∀ (s : NLState) (vs : HostVars),
    noDoubleEnd s.ended (nlRun s vs calls).2.2 = true := by
  induction calls with
  | nil => intro s vs; rfl
  | cons c cs ih =>
    intro s vs
    have h := nlStep_cmds_ok s vs c
    simp [nlRun, noDoubleEnd_append, h.1]
    rw [h.2]
    exact ih _ _

/-- C2 (amended): the wrapper does not enforce that a begin command
precedes `nlfit` or the first `nlend` (see the counterexample), but the
`_ended` flag does guarantee that no two `nlend` commands are issued
without an intervening begin command, and that a `result()` call on a
session that has already ended issues no begin, iterate or end command at
all (it only re-reads the result tree). -/
theorem claim_C2 :
    (∀ (odr implicit : Bool) (numDeps numIndeps : Nat) (vs : HostVars)
        (calls : List NLCall),
      noDoubleEnd false
        (nlRun (nlInit odr implicit numDeps numIndeps) vs calls).2.2 = true)
    ∧ (∀ (s : NLState) (vs : HostVars), s.ended = true →
        (nlStep s vs .result).cmds.all
          (fun c => !c.isEnd && !c.isBegin && !c.isFit) = true) := by
  constructor
  · intro odr implicit numDeps numIndeps vs calls
    exact nlRun_noDoubleEnd calls (nlInit odr implicit numDeps numIndeps) vs
  · intro s vs h
    simp [nlStep, h, NLCmd.isEnd, NLCmd.isBegin, NLCmd.isFit]

/-- Witness for C2 (amended): a full begin–fit–end–result trace, and the
ended-state `result()` conjunct at a concrete ended state. -/
theorem claim_C2_witness :
    noDoubleEnd false
      (nlRun (nlInit false false 1 1) []
        [.set_data false, .fit "", .result, .result]).2.2 = true
    ∧ (⟨true, false, false, 1, 1⟩ : NLState).ended = true
    ∧ (nlStep ⟨true, false, false, 1, 1⟩ [] .result).cmds.all
        (fun c => !c.isEnd && !c.isBegin && !c.isFit) = true :=
  ⟨claim_C2.1 false false 1 1 [] [.set_data false, .fit "", .result, .result],
    rfl, claim_C2.2 ⟨true, false, false, 1, 1⟩ [] rfl⟩

/-- C4: calling `report()` on a session whose end command has already been
issued raises `ValueError` and issues no host command, leaving the
wrapper state and the host variables unchanged. -/
theorem claim_C4 (s : NLState) (vs : HostVars) (auto : Bool) (h : s.ended = true) :
    nlStep s vs (.report auto)
      = ⟨s, vs, [], some (.valueError "You must call report() before calling result().")⟩ := by
  simp [nlStep, h]

/-- Witness for C4 at a concrete ended session. -/
theorem claim_C4_witness :
    (⟨true, true, false, 1, 1⟩ : NLState).ended = true
    ∧ nlStep ⟨true, true, false, 1, 1⟩ [("@NLFS", ⟨4, 1⟩)] (.report false)
        = ⟨⟨true, true, false, 1, 1⟩, [("@NLFS", ⟨4, 1⟩)], [],
            some (.valueError "You must call report() before calling result().")⟩ :=
  ⟨rfl, claim_C4 ⟨true, true, false, 1, 1⟩ [("@NLFS", ⟨4, 1⟩)] false rfl⟩

/-! ## Data connector and `LinearFit.report` (`dc.py`, `analysis.py`) -/

/-- A host call issued by the connector layer: a property read/write, a
LabTalk method, or an `LT_execute` command (tagged). -/
inductive HostCmd where
  | getNumProp (p : String)
  | getStrProp (p : String)
  | setStrProp (p : String)
  | doMethod (m a : String)
  | ltExec (tag : String)
deriving DecidableEq, Repr

/-- `Connector.imp` (`dc.py:98-116`), over the host variable store.
Parameters record whether `self._trOptn` is set, whether `fname` and `sel`
are nonempty, and the `sparks` flag; `dcType` is `self.dc`.  The wrapper
reads `@IMPS` (as `int(po.LT_get_var(...))`), sets it to 0 or 1, runs
the import (a host command assumed not to touch LabTalk system variables),
and writes the truncated old value back. -/
def connector_imp (vs : HostVars) (dcType : String)
    (hasOptn fnameGiven selGiven sparks : Bool) : HostVars × List HostCmd :=
  let optnCmds : List HostCmd :=
    if hasOptn then
      [.ltExec "settreevar-optn", .ltExec "optn-tostring", .ltExec "del-optn-tree"]
    else []
  let srcCmds : List HostCmd := if fnameGiven then [.setStrProp "DC.Source"] else []
  let selCmds : List HostCmd := if selGiven then [.setStrProp "DC.Sel"] else []
  let impArg : String := if dcType = "Import Filter" ∧ ¬selGiven then "1" else ""
  let oldspark : Int := pyTrunc (getVar vs "@IMPS")
  let newspark : Int := if sparks then 1 else 0
  let vs1 := setVar vs "@IMPS" (PyRat.ofInt newspark)
  let vs2 := setVar vs1 "@IMPS" (PyRat.ofInt oldspark)
  (vs2, optnCmds ++ srcCmds ++ selCmds ++ [.doMethod "dc.import" impArg])

/-- `LinearFit.report` (`analysis.py:267-296`): set the requested band
flags in the GUI tree, save `@NLFS`, set it to 0, run the report `xop`,
and restore the saved value. -/
def linearfit_report (vs : HostVars) (band : Nat) : HostVars × List HostCmd :=
  let bandCmds : List HostCmd :=
    (if band &&& 1 ≠ 0 then [.ltExec "set-ConfBands"] else [])
      ++ (if band &&& 2 ≠ 0 then [.ltExec "set-PredBands"] else [])
  let vs2 := setVar (setVar vs "@NLFS" ⟨0, 1⟩) "@NLFS" (getVar vs "@NLFS")
  (vs2, bandCmds ++ [.ltExec "xop-report"])

theorem getVar_setVar : ∀ (vs : HostVars) (k : String) (v : PyRat),
    getVar (setVar vs k v) k = v
  | [], k, v => by simp [getVar, setVar]
  | p :: rest, k, v => by
    by_cases h : p.1 = k
    · simp [setVar, h, getVar]
    · simp [setVar, h, getVar, getVar_setVar rest k v]

theorem pyTrunc_ofInt (n : Int) : pyTrunc (PyRat.ofInt n) = n := by
  simp [pyTrunc, PyRat.ofInt, Int.tdiv_one]

/-- C8 (counterexample): `Connector.imp` restores `int(@IMPS)`, not
`@IMPS` — with a prior value of 3/2 the variable ends up holding 1. -/
theorem claim_C8_cex :
    getVar (connector_imp [("@IMPS", ⟨3, 2⟩)] "csv" false true false false).1 "@IMPS"
      = ⟨1, 1⟩
    ∧ (⟨1, 1⟩ : PyRat) ≠ ⟨3, 2⟩ :=
  ⟨rfl, by decide⟩

/-- C8 (amended): after `Connector.imp` returns, `@IMPS` holds the
`int()` truncation of its prior value — equal to the prior value whenever
that value is an integer, as a LabTalk switch normally is; after
`NLFit.report` (on a session that has not ended) and `LinearFit.report`
return, `@NLFS` holds exactly the value it had before the call. -/
theorem claim_C8 :
    (∀ (vs : HostVars) (dc : String) (a b c d : Bool),
      getVar (connector_imp vs dc a b c d).1 "@IMPS"
        = PyRat.ofInt (pyTrunc (getVar vs "@IMPS")))
    ∧ (∀ (vs : HostVars) (dc : String) (a b c d : Bool) (n : Int),
        getVar vs "@IMPS" = PyRat.ofInt n →
        getVar (connector_imp vs dc a b c d).1 "@IMPS" = getVar vs "@IMPS")
    ∧ (∀ (s : NLState) (vs : HostVars) (auto : Bool), s.ended = false →
        getVar (nlStep s vs (.report auto)).vars "@NLFS" = getVar vs "@NLFS")
    ∧ (∀ (vs : HostVars) (band : Nat),
        getVar (linearfit_report vs band).1 "@NLFS" = getVar vs "@NLFS") := by
  refine ⟨?_, ?_, ?_, ?_⟩
  · intro vs dc a b c d
    simp [connector_imp, getVar_setVar]
  · intro vs dc a b c d n h
    simp [connector_imp, getVar_setVar, h, pyTrunc_ofInt]
  · intro s vs auto h
    simp [nlStep, h, getVar_setVar]
  · intro vs band
    simp [linearfit_report, getVar_setVar]

/-- Witness for C8 (amended) at concrete stores. -/
theorem claim_C8_witness :
    getVar [("@IMPS", PyRat.ofInt 2)] "@IMPS" = PyRat.ofInt 2
    ∧ getVar (connector_imp [("@IMPS", PyRat.ofInt 2)] "csv" false true false true).1
        "@IMPS" = getVar [("@IMPS", PyRat.ofInt 2)] "@IMPS"
    ∧ (⟨false, false, false, 1, 1⟩ : NLState).ended = false
    ∧ getVar (nlStep ⟨false, false, false, 1, 1⟩ [("@NLFS", ⟨5, 1⟩)]
        (.report true)).vars "@NLFS" = getVar [("@NLFS", ⟨5, 1⟩)] "@NLFS"
    ∧ getVar (linearfit_report [("@NLFS", ⟨7, 1⟩)] 3).1 "@NLFS"
        = getVar [("@NLFS", ⟨7, 1⟩)] "@NLFS" :=
  ⟨rfl, claim_C8.2.1 [("@IMPS", PyRat.ofInt 2)] "csv" false true false true 2 rfl, rfl,
    claim_C8.2.2.1 ⟨false, false, false, 1, 1⟩ [("@NLFS", ⟨5, 1⟩)] true rfl,
    claim_C8.2.2.2 [("@NLFS", ⟨7, 1⟩)] 3⟩

/-! ## Live-object reference counting (`base.py`, `config.py`, oext mode) -/

/-- Global state of the out-of-process reference counting:
`_OBJS_COUNT[0]` (a Python int), the `_EXIT[0]` flag, and the number of
live `BaseObject` wrappers (allocated and not yet destroyed). -/
structure RCState where
  count : Int
  exitFlag : Bool
  live : Nat
deriving DecidableEq, Repr

/-- Events of the reference-counting system: `BaseObject.__init__` (which
increments the count first, even when it then raises `TypeError` on a
`None` handle — the partially constructed wrapper still exists and its
`__del__` runs on collection), `BaseObject.__del__`, and the registered
`atexit` handler `_exit_handler`. -/
inductive RCEvent where
  | construct
  | destroy
  | atexitRun
deriving DecidableEq, Repr

/-- One event step; the boolean reports whether `po.Detach()` was invoked:
by `__del__` only when `_EXIT[0]` is set and the decremented count is
zero, by `_exit_handler` only when the count is already zero. -/
def rcStep : RCState → RCEvent → RCState × Bool
  | s, .construct => (⟨s.count + 1, s.exitFlag, s.live + 1⟩, false)
  | s, .destroy =>
    (⟨s.count - 1, s.exitFlag, s.live - 1⟩, s.exitFlag && decide (s.count - 1 = 0))
  | s, .atexitRun => (⟨s.count, true, s.live⟩, decide (s.count = 0))

/-- Initial state: `_OBJS_COUNT = [0]`, `_EXIT = [False]`, no wrappers. -/
def rcInit : RCState := ⟨0, false, 0⟩

/-- An event sequence is valid when every destroy happens with at least one
live wrapper (Python cannot collect a wrapper that does not exist). -/
def rcValid : RCState → List RCEvent → Bool
  | _, [] => true
  | s, e :: es =>
    (match e with | .destroy => decide (0 < s.live) | _ => true)
      && rcValid (rcStep s e).1 es

def rcRun : RCState → List RCEvent → RCState
  | s, [] => s
  | s, e :: es => rcRun (rcStep s e).1 es

/-- Every `Detach` emission during the run happens with no live wrapper
remaining (checked on the post-state of the emitting step). -/
def rcDetachSafe : RCState → List RCEvent → Bool
  | _, [] => true
  | s, e :: es =>
    (!(rcStep s e).2 || decide ((rcStep s e).1.live = 0)) && rcDetachSafe (rcStep s e).1 es

theorem rc_invariant : ∀ (evs : List RCEvent) (s : RCState),
    s.count = (s.live : Int) → rcValid s evs = true →
    (rcRun s evs).count = ((rcRun s evs).live : Int) ∧ rcDetachSafe s evs = true
  | [], s, h, _ => ⟨h, rfl⟩
  | .construct :: es, s, h, hv => by
    simp only [rcValid, rcStep] at hv
    simp at hv
    have hrec := rc_invariant es ⟨s.count + 1, s.exitFlag, s.live + 1⟩ (by simp; omega) hv
    refine ⟨by simpa [rcRun, rcStep] using hrec.1, ?_⟩
    simp only [rcDetachSafe, rcStep]
    simp [hrec.2]
  | .destroy :: es, s, h, hv => by
    simp only [rcValid, rcStep] at hv
    simp at hv
    obtain ⟨hl, hv2⟩ := hv
    have hrec := rc_invariant es ⟨s.count - 1, s.exitFlag, s.live - 1⟩ (by simp; omega) hv2
    refine ⟨by simpa [rcRun, rcStep] using hrec.1, ?_⟩
    simp only [rcDetachSafe, rcStep]
    simp [hrec.2]
    omega
  | .atexitRun :: es, s, h, hv => by
    simp only [rcValid, rcStep] at hv
    simp at hv
    have hrec := rc_invariant es ⟨s.count, true, s.live⟩ (by simp; omega) hv
    refine ⟨by simpa [rcRun, rcStep] using hrec.1, ?_⟩
    simp only [rcDetachSafe, rcStep]
    simp [hrec.2]
    omega

/-- C3: for every valid event sequence from the initial state,
`_OBJS_COUNT[0]` equals the number of live wrappers, and every
`po.Detach()` invocation (destructor or atexit handler) happens with no
live wrapper remaining. -/
theorem claim_C3 (evs : List RCEvent) (h : rcValid rcInit evs = true) :
    (rcRun rcInit evs).count = ((rcRun rcInit evs).live : Int)
    ∧ rcDetachSafe rcInit evs = true :=
  rc_invariant evs rcInit rfl h

/-- Witness for C3 on a construct / exit / destroy sequence (the destroy
step of which actually invokes `Detach`). -/
theorem claim_C3_witness :
    rcValid rcInit [.construct, .atexitRun, .destroy] = true
    ∧ (rcStep (rcRun rcInit [.construct, .atexitRun]) .destroy).2 = true
    ∧ ((rcRun rcInit [.construct, .atexitRun, .destroy]).count
        = ((rcRun rcInit [.construct, .atexitRun, .destroy]).live : Int)
      ∧ rcDetachSafe rcInit [.construct, .atexitRun, .destroy] = true) :=
  ⟨by decide, by decide, claim_C3 [.construct, .atexitRun, .destroy] (by decide)⟩

/-! ## The lazy APP application handle (`config.py`) -/

/-- State of the `APP` wrapper: the optional `OriginExt.Application`
instance (identified by a creation counter) and the `_first` flag. -/
structure AppState where
  app : Option Nat
  first : Bool
  nextId : Nat
deriving DecidableEq, Repr

/-- `APP.__init__`: no instance, `_first` true. -/
def appInit : AppState := ⟨none, true, 0⟩

/-- `APP.__getattr__(name)`: names the `OriginExt` module resolves are
returned directly; otherwise an `OriginExt.Application()` instance is
created if none exists yet.  The boolean reports whether an instance was
created by this access. -/
def appGetattr (moduleAttrs : List String) (s : AppState) (name : String) :
    AppState × Bool :=
  if moduleAttrs.contains name then (s, false)
  else
    match s.app with
    | none => (⟨some s.nextId, s.first, s.nextId + 1⟩, true)
    | some _ => (s, false)

/-- `APP.Exit(releaseonly)`: calls `Exit` on the instance and drops it when
one exists; does nothing (no host call) otherwise. -/
def appExit (s : AppState) (releaseonly : Bool) : AppState × List String :=
  match s.app with
  | none => (s, [])
  | some _ => (⟨none, s.first, s.nextId⟩, ["Exit"])

/-- Run a sequence of attribute accesses, collecting the created-flags. -/
def appRunGetattrs (moduleAttrs : List String) :
    AppState → List String → AppState × List Bool
  | s, [] => (s, [])
  | s, n :: ns =>
    let o := appGetattr moduleAttrs s n
    let r := appRunGetattrs moduleAttrs o.1 ns
    (r.1, o.2 :: r.2)

/-- The indicator of the first name that the module does not resolve. -/
def firstUnresolvable (moduleAttrs : List String) : List String → List Bool
  | [] => []
  | n :: ns =>
    if moduleAttrs.contains n then false :: firstUnresolvable moduleAttrs ns
    else true :: ns.map (fun _ => false)

theorem appRun_some (moduleAttrs : List String) (ns : List String) :
    ∀ (s : AppState) (i : Nat), s.app = some i →
    (appRunGetattrs moduleAttrs s ns).2 = List.replicate ns.length false := by
  induction ns with
  | nil => intro s i _; rfl
  | cons n ns ih =>
    intro s i h
    by_cases hm : n ∈ moduleAttrs
    · simp [appRunGetattrs, appGetattr, hm, ih s i h, List.replicate_succ]
    · simp [appRunGetattrs, appGetattr, hm, h, ih s i h, List.replicate_succ]

theorem appRun_flags (moduleAttrs : List String) (ns : List String) :
    ∀ s : AppState, s.app = none →
    (appRunGetattrs moduleAttrs s ns).2 = firstUnresolvable moduleAttrs ns := by
  induction ns with
  | nil => intro s _; rfl
  | cons n ns ih =>
    intro s h
    by_cases hm : n ∈ moduleAttrs
    · simp [appRunGetattrs, appGetattr, hm, firstUnresolvable, ih s h]
    · have hs := appRun_some moduleAttrs ns
        ⟨some s.nextId, s.first, s.nextId + 1⟩ s.nextId rfl
      simp [appRunGetattrs, appGetattr, hm, h, firstUnresolvable, hs]

/-- C5: from the initial state, an `OriginExt.Application` instance is
created exactly at the first attribute access whose name the `OriginExt`
module does not resolve (and at no other access); an access the module
resolves never creates an instance and leaves the state unchanged; and
`APP.Exit` with no instance performs no host call and changes nothing. -/
theorem claim_C5 :
    (∀ (moduleAttrs : List String) (names : List String),
      (appRunGetattrs moduleAttrs appInit names).2 = firstUnresolvable moduleAttrs names)
    ∧ (∀ (moduleAttrs : List String) (s : AppState) (name : String),
        moduleAttrs.contains name = true → appGetattr moduleAttrs s name = (s, false))
    ∧ (∀ (s : AppState) (releaseonly : Bool), s.app = none →
        appExit s releaseonly = (s, [])) := by
  refine ⟨?_, ?_, ?_⟩
  · intro m ns
    exact appRun_flags m ns appInit rfl
  · intro m s name h
    have hm : name ∈ m := by simpa using h
    simp [appGetattr, hm]
  · intro s releaseonly h
    simp [appExit, h]

/-- Witness for C5 at a concrete module-attribute list and access
sequence. -/
theorem claim_C5_witness :
    (appRunGetattrs ["Application", "APPPATH_USER"] appInit
        ["APPPATH_USER", "CreatePage", "CreatePage"]).2
      = firstUnresolvable ["Application", "APPPATH_USER"]
          ["APPPATH_USER", "CreatePage", "CreatePage"]
    ∧ (["Application"] : List String).contains "Application" = true
    ∧ appGetattr ["Application"] appInit "Application" = (appInit, false)
    ∧ appInit.app = none
    ∧ appExit appInit false = (appInit, []) :=
  ⟨claim_C5.1 ["Application", "APPPATH_USER"] ["APPPATH_USER", "CreatePage", "CreatePage"],
    by decide, claim_C5.2.1 ["Application"] appInit "Application" (by decide), rfl,
    claim_C5.2.2 appInit false rfl⟩

/-! ## Connector dispatch by file type (`base.py`) -/

/-- Python `str.rfind` for a character class: index of the last character
satisfying `p`, or -1. -/
def rfindAux (p : Char → Bool) : List Char → Int → Int → Int
  | [], _, acc => acc
  | c :: rest, i, acc => rfindAux p rest (i + 1) (if p c then i else acc)

def rfindIdx (p : Char → Bool) (cs : List Char) : Int := rfindAux p cs 0 (-1)

/-- The extension part of CPython `ntpath.splitext` (via
`genericpath._splitext` with `sep='\\'`, `altsep='/'`, `extsep='.'`): the
suffix from the last dot after the last separator, unless the characters
between the separator and that dot are all dots (leading dots of the base
name do not start an extension). -/
def splitextExt (cs : List Char) : List Char :=
  let sepIndex := max (rfindIdx (fun c => c = '\\') cs) (rfindIdx (fun c => c = '/') cs)
  let dotIndex := rfindIdx (fun c => c = '.') cs
  if sepIndex < dotIndex then
    let name := (cs.drop (sepIndex + 1).toNat).take (dotIndex - (sepIndex + 1)).toNat
    if name.any (fun c => c ≠ '.') then cs.drop dotIndex.toNat else []
  else []

/-- `utils.get_file_ext`: empty string for an empty name, else the
extension from `os.path.splitext`. -/
def get_file_ext (fname : List Char) : String :=
  if fname.length = 0 then "" else String.mk (splitextExt fname)

/-- `base._DC_from_ext`: `csv` for text-like extensions, `excel` for Excel
ones, otherwise `ValueError`. -/
def DC_from_ext (ext : String) : Except PyErr String :=
  if ext = ".csv" ∨ ext = ".asc" ∨ ext = ".txt" ∨ ext = ".dat" then .ok "csv"
  else if ext = ".xls" ∨ ext = ".xlsx" then .ok "excel"
  else .error (.valueError "file type not supported, must be text or Excel files")

/-- Host-side connector state of the target sheet: whether the book has a
data connector (`HasDC` property nonzero) and the book's `DC.Type`
string. -/
structure DCHost where
  hasDC : Bool
  dcType : String
deriving DecidableEq, Repr

/-- Python `s.split('_', 2)[0]`. -/
def takeFirstToken (s : String) : String :=
  String.mk (s.toList.takeWhile (fun c => c ≠ '_'))

/-- Python `s.lower()` (ASCII). -/
def lowerString (s : String) : String := String.mk (lowerStr s.toList)

/-- `DSheet.has_DC` (`base.py:429-433`): commands issued and the connector
name returned (empty when the book has none). -/
def has_DC (h : DCHost) : List HostCmd × String :=
  if h.hasDC then
    ([.getNumProp "HasDC", .getStrProp "DC.Type"], lowerString (takeFirstToken h.dcType))
  else ([.getNumProp "HasDC"], "")

/-- `Connector.__init__` (`dc.py:28-42`): determine the connector name
(defaulting to the book's current one, else `csv`, and lowercasing),
remove a different existing connector, and add the connector when the book
has none left.  Returns the connector name `self.dc` and the commands
issued. -/
def connector_init (h : DCHost) (dctype : String) : String × List HostCmd :=
  let hd := has_DC h
  let currentDC := hd.2
  let dc := lowerString
    (if dctype = "" then (if currentDC ≠ "" then currentDC else "csv") else dctype)
  let removeCmds : List HostCmd :=
    if currentDC ≠ "" ∧ currentDC ≠ dc then [.ltExec "wbook.dc.Remove()"] else []
  let currentDC2 := if currentDC ≠ "" ∧ currentDC ≠ dc then "" else currentDC
  let addCmds : List HostCmd :=
    if currentDC2 = "" then [.doMethod "DC.Allow" "2", .ltExec "wbook.dc.add"] else []
  (dc, hd.1 ++ removeCmds ++ addCmds)

/-- `DSheet.from_file` (`base.py:435-458`): take the extension, choose the
connector (`dctype` when given, else by extension), then construct the
connector and import.  `get_file_ext` and `_DC_from_ext` are pure, so on
the `ValueError` path no host command has been issued. -/
def from_file (h : DCHost) (vs : HostVars) (fname : List Char)
    (dctype : String) (selGiven sparks : Bool) : Except PyErr String × List HostCmd :=
  match (if dctype ≠ "" then .ok dctype else DC_from_ext (get_file_ext fname) :
      Except PyErr String) with
  | .error e => (.error e, [])
  | .ok dcArg =>
    let ci := connector_init h dcArg
    let imp := connector_imp vs ci.1 false (!fname.isEmpty) selGiven sparks
    (.ok ci.1, ci.2 ++ imp.2)

example : get_file_ext ("C:\\data\\file.CSV".toList) = ".CSV" := by decide
example : get_file_ext (".bashrc".toList) = "" := by decide
example : get_file_ext ("a.tar.gz".toList) = ".gz" := by decide
example : get_file_ext ("dir.d\\file".toList) = "" := by decide

/-- C6: with no connector type given, `from_file` selects the `csv`
connector for `.csv`/`.asc`/`.txt`/`.dat` extensions and the `excel`
connector for `.xls`/`.xlsx`; any other extension raises `ValueError`
before any host command is issued. -/
theorem claim_C6 (h : DCHost) (vs : HostVars) (fname : List Char)
    (selGiven sparks : Bool) :
    (get_file_ext fname = ".csv" ∨ get_file_ext fname = ".asc"
        ∨ get_file_ext fname = ".txt" ∨ get_file_ext fname = ".dat" →
      (from_file h vs fname "" selGiven sparks).1 = .ok "csv")
    ∧ (get_file_ext fname = ".xls" ∨ get_file_ext fname = ".xlsx" →
      (from_file h vs fname "" selGiven sparks).1 = .ok "excel")
    ∧ (get_file_ext fname ≠ ".csv" → get_file_ext fname ≠ ".asc" →
        get_file_ext fname ≠ ".txt" → get_file_ext fname ≠ ".dat" →
        get_file_ext fname ≠ ".xls" → get_file_ext fname ≠ ".xlsx" →
      from_file h vs fname "" selGiven sparks
        = (.error (.valueError "file type not supported, must be text or Excel files"),
            [])) := by
  refine ⟨?_, ?_, ?_⟩
  · intro hx
    unfold from_file
    rcases hx with hx | hx | hx | hx <;> rw [hx] <;> rfl
  · intro hx
    unfold from_file
    rcases hx with hx | hx <;> rw [hx] <;> rfl
  · intro h1 h2 h3 h4 h5 h6
    unfold from_file
    have hdc : DC_from_ext (get_file_ext fname)
        = .error (.valueError "file type not supported, must be text or Excel files") := by
      simp [DC_from_ext, h1, h2, h3, h4, h5, h6]
    rw [show (if ("" : String) ≠ "" then .ok "" else DC_from_ext (get_file_ext fname) :
        Except PyErr String) = DC_from_ext (get_file_ext fname) from rfl, hdc]

/-- Witness for C6 at concrete file names of each kind. -/
theorem claim_C6_witness :
    get_file_ext ("data.csv".toList) = ".csv"
    ∧ (from_file ⟨false, ""⟩ [] ("data.csv".toList) "" false false).1 = .ok "csv"
    ∧ get_file_ext ("book.xlsx".toList) = ".xlsx"
    ∧ (from_file ⟨false, ""⟩ [] ("book.xlsx".toList) "" false false).1 = .ok "excel"
    ∧ get_file_ext ("image.png".toList) ≠ ".csv"
    ∧ from_file ⟨false, ""⟩ [] ("image.png".toList) "" false false
        = (.error (.valueError "file type not supported, must be text or Excel files"),
            []) :=
  ⟨by decide,
    (claim_C6 ⟨false, ""⟩ [] ("data.csv".toList) false false).1 (.inl (by decide)),
    by decide,
    (claim_C6 ⟨false, ""⟩ [] ("book.xlsx".toList) false false).2.1 (.inr (by decide)),
    by decide,
    (claim_C6 ⟨false, ""⟩ [] ("image.png".toList) false false).2.2 (by decide) (by decide)
      (by decide) (by decide) (by decide) (by decide)⟩
